import Mathlib

/-!
Verification development for the InjectiveLabs/coretracer span-lifecycle core.

The definitions below are a shallow embedding of the repository's Go sources:
`tracer_otel.go` (span lifecycle engine), the registry file (free entry
points), `tags.go`/`safemap.go` (tag container), the tombstone helpers kept
in the repository, and a model of the `stackcache` package.  Machine state
(the per-call `doneC` channel, the span handle shared between the completion
closure, the watchdog goroutine and `TraceError`, the context-carried
tombstone values) is made explicit as record fields; the OpenTelemetry span
handle is modelled by a record together with the collaborator's documented
operation semantics (mutators are no-ops once the span has ended; a status
code is never lowered, with ranking Unset < Error < Ok).
-/

namespace CoreTracer

abbrev Time := Nat

abbrev Attr := String × String

inductive LogLevel
  | debug
  | info
  | warn
  | error
deriving DecidableEq

/-- Status codes of the exporter collaborator (`otelcodes`): ranking is
Unset(0) < Error(1) < Ok(2); `SetStatus` never lowers the code. -/
inductive StatusCode
  | unset
  | error
  | ok
deriving DecidableEq

def StatusCode.rank : StatusCode → Nat
  | .unset => 0
  | .error => 1
  | .ok => 2

/-- An error event recorded on a span by `RecordError`: the error message,
whether the collaborator's own stack trace option was requested
(`WithStackTrace(true)`), and extra event attributes. -/
structure ErrorEvent where
  msg : String
  withStack : Bool
  attrs : List Attr
deriving DecidableEq

/-- Model of the collaborator's span handle.  `sid` identifies the span,
`parent` links to the parent span's `sid` (none for a root). -/
structure Span where
  sid : Nat
  name : String
  parent : Option Nat
  startTime : Time
  recording : Bool
  status : StatusCode
  statusDesc : String
  events : List ErrorEvent
  attrs : List Attr
  endTime : Option Time
deriving DecidableEq

/-- Collaborator semantics of `SpanHandle.SetStatus`: ignored once the span
has ended, and ignored when it would lower the status code; the description
is kept only for an error status. -/
def Span.setStatus (s : Span) (c : StatusCode) (d : String) : Span :=
  if ¬ s.recording then s
  else if c.rank < s.status.rank then s
  else { s with status := c, statusDesc := if c = .error then d else "" }

/-- Collaborator semantics of `SpanHandle.RecordError`: appends an error
event while the span is recording. -/
def Span.recordError (s : Span) (e : ErrorEvent) : Span :=
  if s.recording then { s with events := s.events ++ [e] } else s

/-- Collaborator semantics of `SpanHandle.SetAttributes`. -/
def Span.setAttributes (s : Span) (kvs : List Attr) : Span :=
  if s.recording then { s with attrs := s.attrs ++ kvs } else s

/-- Collaborator semantics of `SpanHandle.End` at timestamp `t`: stops
recording; a second `End` is a no-op. -/
def Span.endAt (s : Span) (t : Time) : Span :=
  if s.recording then { s with recording := false, endTime := some t } else s

/-- A resolved call frame, shrunk to the one field the engine reads. -/
structure Frame where
  function : String
deriving DecidableEq

/-- Breakpoint-package test: the frame's qualified name is prefixed by the
configured breakpoint package. -/
def bpMatches (bp : String) (fn : String) : Bool :=
  bp.toList.isPrefixOf fn.toList

/-- Modelled from the spec: the breakpoint elision of the `stackcache`
package, whose implementation file is not among the provided sources (only
its tests are).  Removes the leading contiguous run of frames whose
qualified name is prefixed by the breakpoint package; elision stops at the
first non-matching frame. -/
def elideBreakpointRun (bp : String) : List Frame → List Frame
  | [] => []
  | f :: rest => if bpMatches bp f.function then elideBreakpointRun bp rest else f :: rest

/-- Modelled from the spec: `StackCache.GetStackFrames`, whose
implementation file is not among the provided sources.  Effective skip is
`searchOffset + callerOffset + 1`; the remaining frames are returned
nearest-first with the leading breakpoint run elided. -/
def getStackFrames (so co : Nat) (bp : String) (raw : List Frame) : List Frame :=
  elideBreakpointRun bp (raw.drop (so + co + 1))

/-- Modelled from the spec: `StackCache.GetCaller`, whose implementation
file is not among the provided sources.  Resolves the frame at the
effective skip, scans past the contiguous breakpoint run, and returns the
first frame past the run, or the deepest resolvable frame when the run
reaches the stack bottom. -/
def getCaller (so co : Nat) (bp : String) (raw : List Frame) : Option Frame :=
  let rest := raw.drop (so + co + 1)
  match elideBreakpointRun bp rest with
  | f :: _ => some f
  | [] => rest.getLast?

/-- Suffix of `cs` after the last occurrence of `sep` (all of `cs` when
`sep` does not occur). -/
def afterLastSep (sep : Char) (cs : List Char) : List Char :=
  (cs.reverse.takeWhile (fun c => c != sep)).reverse

/-- Splits a character list on a separator character. -/
def splitOnChar (sep : Char) (cs : List Char) : List (List Char) :=
  cs.foldr
    (fun c acc =>
      if c = sep then [] :: acc
      else
        match acc with
        | [] => [[c]]
        | g :: gs => (c :: g) :: gs)
    [[]]

def digitsOnly (seg : List Char) : Bool :=
  !seg.isEmpty && seg.all (fun c => c.isDigit)

def joinDots : List (List Char) → List Char
  | [] => []
  | [g] => g
  | g :: gs => g ++ '.' :: joinDots gs

/-- Modelled from the spec: `stackcache.FuncName`, whose implementation file
is not among the provided sources.  From `pkg/path.Receiver.Method.suffix`:
strip the path up to the last `/`, then keep the trailing `.`-delimited
segment, unless it is part of a closure-suffix chain (such as `func1` or
`func2.1.1`), in which case the whole closure suffix is kept.  Empty input
gives empty output; input without separators is returned unchanged. -/
def FuncName (s : String) : String :=
  let cs := s.toList
  if cs.isEmpty then ""
  else
    let base := afterLastSep '/' cs
    match splitOnChar '.' base with
    | [] => s
    | [b] => String.mk b
    | segs =>
      let ds := (segs.reverse.takeWhile digitsOnly).reverse
      if ds.isEmpty then String.mk (segs.getLastD [])
      else
        let rest := segs.take (segs.length - ds.length)
        match rest.getLast? with
        | some seg => String.mk (joinDots (seg :: ds))
        | none => String.mk (joinDots ds)

/-- Frames that `callStackFramesToSpans` skips by name
(`tracer_otel.go`, the `runtime.main` / `main.main` test in the loop). -/
def isMainFrame (f : Frame) : Bool :=
  f.function == "runtime.main" || f.function == "main.main"

/-- A freshly started synthetic ancestor span: started at the captured
timestamp, recording, status unset. -/
def mkSynthSpan (sid : Nat) (nm : String) (parent : Option Nat) (t : Time)
    (attrs : List Attr) : Span :=
  { sid := sid, name := nm, parent := parent, startTime := t, recording := true,
    status := .unset, statusDesc := "", events := [], attrs := attrs, endTime := none }

/-- The loop body of `callStackFramesToSpans`: walks the selected frames,
skipping `runtime.main` / `main.main`, starting one span per remaining
frame; the first created span is a new root, each following span is
parented on the previous one (the context returned by the previous
`tracer.Start`). -/
def buildSynth (now : Time) (attrs : List Attr) :
    List Frame → Option Nat → Nat → List Span
  | [], _, _ => []
  | f :: rest, parent, sid =>
    if isMainFrame f then buildSynth now attrs rest parent sid
    else
      mkSynthSpan sid (FuncName f.function) parent now attrs
        :: buildSynth now attrs rest (some sid) (sid + 1)

/-- The frames visited by the loop `for i := len(frames)-2; i > 0; i--`:
indices `len-2` down to `1`, that is the input without its first and last
element, reversed. -/
def selectedFrames (frames : List Frame) : List Frame :=
  ((frames.take (frames.length - 1)).drop 1).reverse

/-- `otelTracer.callStackFramesToSpans` (`tracer_otel.go`): with two or
fewer frames no spans are opened; otherwise one span is started per
selected non-main frame, all stamped with the captured timestamp. -/
def callStackFramesToSpans (frames : List Frame) (now : Time) (attrs : List Attr) :
    List Span :=
  if frames.length ≤ 2 then []
  else buildSynth now attrs (selectedFrames frames) none 0

/-- The context-carried tombstone values (`stacktracerSpanDone` /
`stacktracerSpanError` / `stacktracerSpanStuck` keys): presence of each key
is a boolean. -/
structure Tombs where
  doneMark : Bool := false
  errMark : Bool := false
  stuckMark : Bool := false
deriving DecidableEq

/-- `otelTracer.checkAndSetTombstoneSpanCtxDone`, as kept in the repository
sources: an Error or Stuck marker blocks; otherwise the Done marker is
written and the close may proceed (second component true). -/
def checkAndSetTombstoneSpanCtxDone (ts : Tombs) : Tombs × Bool :=
  if ts.errMark || ts.stuckMark then (ts, false)
  else ({ ts with doneMark := true }, true)

/-- `otelTracer.checkAndSetTombstoneSpanCtxError`, as kept in the repository
sources: Stuck blocks silently; Done or Error blocks with a
programming-error warning (third component); otherwise the Error marker is
written and the close may proceed. -/
def checkAndSetTombstoneSpanCtxError (ts : Tombs) :
    Tombs × Bool × List (LogLevel × String) :=
  if ts.stuckMark then (ts, false, [])
  else if ts.doneMark then
    (ts, false, [(.warn, "span context is already tombstoned as done - this is a bug")])
  else if ts.errMark then
    (ts, false, [(.warn, "span context is already tombstoned as error - skipping double tombstoning")])
  else ({ ts with errMark := true }, true, [])

/-- The state of one `traceStart` call: the final span handle (shared by the
completion closure, the watchdog goroutine and `TraceError` through the
context), the synthetic ancestor spans with their captured timestamp, the
`doneC` channel's closed flag, the tombstone values of the propagated
context, the log lines emitted so far, and the order in which `End` was
called on spans (by `sid`). -/
structure CallState where
  span : Span
  parents : List Span
  vNow : Option Time
  doneClosed : Bool
  tombs : Tombs
  logs : List (LogLevel × String)
  endOrder : List Nat
deriving DecidableEq

/-- A freshly started real span, as returned by `tracer.Start` for the
final span of `traceStart`. -/
def mkStartedSpan (sid : Nat) (nm : String) (parent : Option Nat) (t : Time)
    (attrs : List Attr) : Span :=
  { sid := sid, name := nm, parent := parent, startTime := t, recording := true,
    status := .unset, statusDesc := "", events := [], attrs := attrs, endTime := none }

/-- `traceStart` with `virtualTrace = true` (`tracer_otel.go`): captures one
`now`, converts the captured stack frames to synthetic ancestor spans, then
starts the final named span on the resulting context (parented on the last
synthetic span, if any). -/
def traceStartVirtual (frames : List Frame) (funcName : String) (now tReal : Time)
    (attrs : List Attr) : CallState :=
  let parents := callStackFramesToSpans frames now attrs
  { span := mkStartedSpan parents.length funcName ((parents.getLast?).map Span.sid)
      tReal attrs
    parents := parents
    vNow := some now
    doneClosed := false
    tombs := {}
    logs := []
    endOrder := [] }

/-- `traceStart` with `virtualTrace = false`: no synthetic ancestors, the
final span is started on the caller's context. -/
def traceStartReal (parent : Option Nat) (sid : Nat) (funcName : String)
    (tReal : Time) (attrs : List Attr) : CallState :=
  { span := mkStartedSpan sid funcName parent tReal attrs
    parents := []
    vNow := none
    doneClosed := false
    tombs := {}
    logs := []
    endOrder := [] }

/-- `parentSpansEndFn` as installed in the `virtualTrace` branch of
`traceStart`: ends every synthetic ancestor at the captured `now`.  The
loop in the source runs `for i := 0; i < len(spansToEnd); i++`, that is in
slice order; the end order recorded here follows it. -/
def parentSpansEndApply (cs : CallState) : CallState :=
  match cs.vNow with
  | none => cs
  | some now =>
    if cs.parents.isEmpty then cs
    else
      { cs with parents := cs.parents.map (fun s => s.endAt now)
              , endOrder := cs.endOrder ++ cs.parents.map Span.sid }

/-- Go runtime faults the engine can raise. -/
inductive GoPanic
  | closeOfClosedChannel
deriving DecidableEq

/-- The `SpanEnderFn` closure returned by `traceStart`
(`tracer_otel.go`): it first executes `close(doneC)` — which faults when
the channel is already closed — then, if the span is still recording, sets
Ok status and ends it, and finally runs `parentSpansEndFn`. -/
def spanEnderFn (t : Time) (cs : CallState) : Except GoPanic CallState :=
  if cs.doneClosed then .error .closeOfClosedChannel
  else
    let cs1 : CallState := { cs with doneClosed := true }
    let cs2 : CallState :=
      if cs1.span.recording then
        { cs1 with span := (cs1.span.setStatus .ok "").endAt t
                 , endOrder := cs1.endOrder ++ [cs1.span.sid] }
      else cs1
    .ok (parentSpansEndApply cs2)

def stuckEventMsg (name : String) (elapsed : Time) : String :=
  "detected stuck function: " ++ name ++ " stuck for " ++ toString elapsed

/-- Effect of the watchdog's timer-expiry branch (`tracer_otel.go`): if the
span is no longer recording it returns; otherwise it records a synthetic
stuck error with the collaborator's stack trace option, sets the
`exception.type = stuck` attribute, and sets error status — it does not end
the span. -/
def watchdogExpireEffect (name : String) (elapsed : Time) (cs : CallState) : CallState :=
  if ¬ cs.span.recording then cs
  else
    let e : ErrorEvent :=
      { msg := stuckEventMsg name elapsed, withStack := true, attrs := [] }
    let s1 := cs.span.recordError e
    let s2 := s1.setAttributes [("exception.type", "stuck")]
    { cs with span := s2.setStatus .error "stuck" }

inductive WatchdogOutcome
  | signaled
  | expired
deriving DecidableEq

/-- One run of the watchdog goroutine: it either receives the completion
signal (`doneC` closed) and returns, or its timer expires and it applies
the expiry effect.  The boolean is whether the timer was released: the
source's `defer timeout.Stop()` runs on every return path, so it is true on
both outcomes. -/
def watchdogRun (o : WatchdogOutcome) (name : String) (elapsed : Time)
    (cs : CallState) : CallState × Bool :=
  match o with
  | .signaled => (cs, true)
  | .expired => (watchdogExpireEffect name elapsed cs, true)

/-- The `exception.stacktrace` event attribute added by `TraceError` when
the captured and trimmed stack trace is nonempty. -/
def stackTraceAttrs (stk : String) : List Attr :=
  if stk = "" then [] else [("exception.stacktrace", stk)]

/-- `otelTracer.TraceError` acting on a context that carries this call's
span (`tracer_otel.go`): a nil error only logs at debug level; a span that
is no longer recording makes the call a silent no-op; otherwise error
status is set, the error is recorded with the merged tag attributes and the
trimmed stack trace, and the span is ended. -/
def traceErrorOnSpan (err : Option String) (stk : String) (tagAttrs : List Attr)
    (t : Time) (cs : CallState) : CallState :=
  match err with
  | none =>
    { cs with logs := cs.logs ++ [(.debug, "coretracer: TraceError() called with nil error")] }
  | some msg =>
    if ¬ cs.span.recording then cs
    else
      let s1 := cs.span.setStatus .error msg
      let s2 := s1.recordError
        { msg := msg, withStack := false, attrs := tagAttrs ++ stackTraceAttrs stk }
      { cs with span := s2.endAt t, endOrder := cs.endOrder ++ [s2.sid] }

/-- What the context passed to `TraceError` carries: either no span at all,
or a span handle. -/
inductive CtxSpan
  | noSpan
  | withSpan (s : Span)
deriving DecidableEq

def CtxSpan.toOption : CtxSpan → Option Span
  | .noSpan => none
  | .withSpan s => some s

/-- Observable outcome of one `TraceError` call: the synthetic ancestors it
opened, the span it involved after the call, and the log lines. -/
structure TraceErrorOut where
  parents : List Span
  resSpan : Option Span
  logs : List (LogLevel × String)
deriving DecidableEq

/-- The non-nil no-op span the collaborator's `SpanFromContext` returns for
a context that carries no span: it is not recording, so every operation on
it is a no-op. -/
def noopSpan : Span :=
  { sid := 0, name := "", parent := none, startTime := 0, recording := false,
    status := .unset, statusDesc := "", events := [], attrs := [], endTime := none }

/-- Collaborator semantics of `SpanFromContext`: it never returns nil — a
span-free context yields the non-nil no-op span.  The `none` value (a nil
Go interface value) is therefore never produced. -/
def spanFromContext (c : CtxSpan) : Option Span :=
  match c with
  | .noSpan => some noopSpan
  | .withSpan s => some s

/-- `otelTracer.TraceError` in full (`tracer_otel.go`): nil error → debug
log only, before any span lookup.  Otherwise the span is fetched with
`SpanFromContext`; the `span == nil` manufacture branch is kept from the
source (it would open a virtual trace as `Traceless` does and error-close
the named span) but is dead code, because `spanFromContext` never returns
`none`; a span that is not recording — which includes the no-op span of a
span-free context — makes the call a silent no-op; otherwise error status
is set, the error is recorded with the merged tag attributes and the
trimmed stack trace, and the span is ended. -/
def TraceErrorM (c : CtxSpan) (err : Option String) (frames : List Frame)
    (callerName : String) (now tStart tEnd : Time) (attrs tagAttrs : List Attr)
    (stk : String) : TraceErrorOut :=
  match err with
  | none =>
    { parents := [], resSpan := c.toOption,
      logs := [(.debug, "coretracer: TraceError() called with nil error")] }
  | some msg =>
    match spanFromContext c with
    | none =>
      let cs := traceStartVirtual frames callerName now tStart attrs
      let s1 := cs.span.setStatus .error msg
      let s2 := s1.recordError
        { msg := msg, withStack := false, attrs := stackTraceAttrs stk }
      { parents := cs.parents, resSpan := some (s2.endAt tEnd),
        logs := [(.debug, "coretracer: TracelessError starts from " ++ callerName)] }
    | some span =>
      if ¬ span.recording then { parents := [], resSpan := some span, logs := [] }
      else
        let s1 := span.setStatus .error msg
        let s2 := s1.recordError
          { msg := msg, withStack := false, attrs := tagAttrs ++ stackTraceAttrs stk }
        { parents := [], resSpan := some (s2.endAt tEnd), logs := [] }

/-- The engine interface behind the global registry (the `Tracer`
interface), over an abstract world type. -/
structure Engine (σ : Type) where
  trace : List Attr → σ → σ × (σ → σ)
  traceWithName : String → List Attr → σ → σ × (σ → σ)
  traceError : Option String → List Attr → σ → σ
  traceless : List Attr → σ → σ × (σ → σ)
  tracelessWithName : String → List Attr → σ → σ × (σ → σ)
  withTags : List Attr → σ → σ
  setCallStackOffset : Int → σ → σ
  close : σ → σ

/-- Free entry point `Trace`: under the reader lock, no-op ender when the
active-engine reference is unset, else delegate. -/
def Trace {σ : Type} (r : Option (Engine σ)) (tags : List Attr) (s : σ) :
    σ × (σ → σ) :=
  match r with
  | none => (s, fun w => w)
  | some e => e.trace tags s

/-- Free entry point `TraceWithName`. -/
def TraceWithName {σ : Type} (r : Option (Engine σ)) (name : String)
    (tags : List Attr) (s : σ) : σ × (σ → σ) :=
  match r with
  | none => (s, fun w => w)
  | some e => e.traceWithName name tags s

/-- Free entry point `TraceError`. -/
def TraceError {σ : Type} (r : Option (Engine σ)) (err : Option String)
    (tags : List Attr) (s : σ) : σ :=
  match r with
  | none => s
  | some e => e.traceError err tags s

/-- Free entry point `Traceless`. -/
def Traceless {σ : Type} (r : Option (Engine σ)) (tags : List Attr) (s : σ) :
    σ × (σ → σ) :=
  match r with
  | none => (s, fun w => w)
  | some e => e.traceless tags s

/-- Free entry point `TracelessWithName`. -/
def TracelessWithName {σ : Type} (r : Option (Engine σ)) (name : String)
    (tags : List Attr) (s : σ) : σ × (σ → σ) :=
  match r with
  | none => (s, fun w => w)
  | some e => e.tracelessWithName name tags s

/-- Free entry point `WithTags`. -/
def WithTags {σ : Type} (r : Option (Engine σ)) (tags : List Attr) (s : σ) : σ :=
  match r with
  | none => s
  | some e => e.withTags tags s

/-- Free entry point `SetCallStackOffset`. -/
def SetCallStackOffset {σ : Type} (r : Option (Engine σ)) (off : Int) (s : σ) : σ :=
  match r with
  | none => s
  | some e => e.setCallStackOffset off s

/-- Free entry point `Close`: under the writer lock, returns at once when
the reference is unset; else closes the engine, clears the reference and
shuts the exporter pipeline down. -/
def Close {σ : Type} (r : Option (Engine σ)) (shutdown : σ → σ) (s : σ) :
    Option (Engine σ) × σ :=
  match r with
  | none => (r, s)
  | some e => (none, shutdown (e.close s))

/-! Tag container (`tags.go` / `safemap.go`).  A `Tags` value is a `SafeMap`
whose mutex pointer may be nil: the zero value is modelled as `none`, a
valid set as `some` of its entries. -/

abbrev TagVal := String

abbrev TagEntries := List (String × TagVal)

/-- Go map assignment `m[k] = v`. -/
def mapSet (m : TagEntries) (k : String) (v : TagVal) : TagEntries :=
  if m.any (fun p => p.1 == k) then m.map (fun p => if p.1 == k then (k, v) else p)
  else m ++ [(k, v)]

abbrev GoTags := Option TagEntries

/-- `Tags.With`: a zero-value receiver allocates a fresh set via
`newSafeMapWith`; otherwise `SafeMap.Set` stores the pair. -/
def tagsWith (t : GoTags) (k : String) (v : TagVal) : GoTags :=
  match t with
  | none => some [(k, v)]
  | some m => some (mapSet m k v)

/-- The entries visited by one `Tags.Range` iteration: iteration stops
after the first entry for which the callback returns false. -/
def rangeVisit : TagEntries → (String → TagVal → Bool) → TagEntries
  | [], _ => []
  | p :: rest, fn => if fn p.1 p.2 then p :: rangeVisit rest fn else [p]

/-- `Tags.Range`: a zero-value receiver returns at once (the callback is
never invoked). -/
def tagsRangeVisited (t : GoTags) (fn : String → TagVal → Bool) : TagEntries :=
  match t with
  | none => []
  | some m => rangeVisit m fn

/-- One step of `Tags.Union`'s copy loops: a zero-value operand contributes
nothing, a valid operand's entries are copied into the accumulator. -/
def unionInto (acc : TagEntries) (t : GoTags) : TagEntries :=
  match t with
  | none => acc
  | some m => m.foldl (fun a p => mapSet a p.1 p.2) acc

/-- `Tags.Union`: allocates a fresh set via `newSafeMap`, copies the
receiver's entries when it is valid, then each argument's entries in order,
and returns the new set. -/
def tagsUnion (t : GoTags) (args : List GoTags) : GoTags :=
  some (args.foldl unionInto (unionInto [] t))

/-! Helper lemmas. -/

theorem dropLenAppend {α : Type} (a b : List α) : (a ++ b).drop a.length = b := by
  induction a with
  | nil => rfl
  | cons x xs ih => exact ih

theorem elideBreakpointRun_append (bp : String) (pre rest : List Frame) (f : Frame)
    (hpre : ∀ g ∈ pre, bpMatches bp g.function = true)
    (hf : bpMatches bp f.function = false) :
    elideBreakpointRun bp (pre ++ f :: rest) = f :: rest := by
  induction pre with
  | nil => simp [elideBreakpointRun, hf]
  | cons g pre ih =>
    have hg := hpre g (List.mem_cons_self g pre)
    simp only [List.cons_append, elideBreakpointRun, hg, if_true]
    exact ih (fun x hx => hpre x (List.mem_cons_of_mem g hx))

theorem buildSynth_mem (now : Time) (attrs : List Attr) :
    ∀ (fs : List Frame) (parent : Option Nat) (sid : Nat) (s : Span),
      s ∈ buildSynth now attrs fs parent sid → s.startTime = now ∧ s.attrs = attrs := by
  intro fs
  induction fs with
  | nil => intro parent sid s h; simp [buildSynth] at h
  | cons f rest ih =>
    intro parent sid s h
    cases hm : isMainFrame f with
    | true =>
      rw [buildSynth, if_pos hm] at h
      exact ih parent sid s h
    | false =>
      rw [buildSynth, if_neg (by simp [hm])] at h
      rcases List.mem_cons.mp h with h1 | h2
      · subst h1; exact ⟨rfl, rfl⟩
      · exact ih (some sid) (sid + 1) s h2

theorem buildSynth_head_parent (now : Time) (attrs : List Attr) :
    ∀ (fs : List Frame) (parent : Option Nat) (sid : Nat) (s : Span),
      (buildSynth now attrs fs parent sid).head? = some s → s.parent = parent := by
  intro fs
  induction fs with
  | nil => intro parent sid s h; simp [buildSynth] at h
  | cons f rest ih =>
    intro parent sid s h
    cases hm : isMainFrame f with
    | true =>
      rw [buildSynth, if_pos hm] at h
      exact ih parent sid s h
    | false =>
      rw [buildSynth, if_neg (by simp [hm])] at h
      simp only [List.head?_cons, Option.some_inj] at h
      subst h
      rfl

theorem buildSynth_chain (now : Time) (attrs : List Attr) :
    ∀ (fs : List Frame) (parent : Option Nat) (sid : Nat),
      List.Chain' (fun a b => b.parent = some a.sid) (buildSynth now attrs fs parent sid) := by
  intro fs
  induction fs with
  | nil => intro parent sid; simp [buildSynth]
  | cons f rest ih =>
    intro parent sid
    cases hm : isMainFrame f with
    | true =>
      rw [buildSynth, if_pos hm]
      exact ih parent sid
    | false =>
      rw [buildSynth, if_neg (by simp [hm])]
      rw [List.chain'_cons']
      refine ⟨?_, ih (some sid) (sid + 1)⟩
      intro y hy
      exact buildSynth_head_parent now attrs rest (some sid) (sid + 1) y (by simpa using hy)

theorem buildSynth_names (now : Time) (attrs : List Attr) :
    ∀ (fs : List Frame) (parent : Option Nat) (sid : Nat),
      (buildSynth now attrs fs parent sid).map Span.name
        = (fs.filter (fun f => !(isMainFrame f))).map (fun f => FuncName f.function) := by
  intro fs
  induction fs with
  | nil => intro parent sid; simp [buildSynth]
  | cons f rest ih =>
    intro parent sid
    cases hm : isMainFrame f with
    | true =>
      rw [buildSynth, if_pos hm]
      simpa [List.filter_cons, hm] using ih parent sid
    | false =>
      rw [buildSynth, if_neg (by simp [hm])]
      simp only [List.map_cons, List.filter_cons, hm]
      exact congrArg (List.cons (FuncName f.function)) (ih (some sid) (sid + 1))

theorem selectedFrames_eq_nil (frames : List Frame) (h : frames.length ≤ 2) :
    selectedFrames frames = [] := by
  have hl : (selectedFrames frames).length = 0 := by
    simp only [selectedFrames, List.length_reverse, List.length_drop, List.length_take]
    omega
  exact List.length_eq_zero.mp hl

theorem foldl_unionInto_append_none (b : TagEntries) (pre post : List GoTags) :
    List.foldl unionInto b (pre ++ none :: post) = List.foldl unionInto b (pre ++ post) := by
  induction pre generalizing b with
  | nil => rfl
  | cons a pre ih => simpa using ih (unionInto b a)

/-! Claim theorems. -/

/-- Claim C1: the completion capability returned by `traceStart` is not
idempotent: its closure starts with `close(doneC)`, so a second invocation
on the same span context faults with a close-of-closed-channel runtime
fault instead of being a no-op.  Evaluated at a concrete freshly traced
call ended normally and then ended a second time. -/
theorem spanEnder_double_invocation_panics :
    (spanEnderFn 5 (traceStartReal none 0 "op" 1 [])).bind (fun c => spanEnderFn 6 c)
      = Except.error GoPanic.closeOfClosedChannel := rfl

/-- Claim C2: on a virtual trace with synthetic ancestors `f` (sid 0, root)
and `g` (sid 1), opened in that order, the completion function ends the
named span (sid 2) and then the ancestors in slice order — end order
`[2, 0, 1]`, the ancestors root-first, which is their exact OPEN order, not
the reverse order the claim (and the loop's own comment) states.  The
shared-timestamp half of the claim does hold: both ancestors start and end
at the one captured `now` (50). -/
theorem synthetic_spans_closed_in_open_order :
    ((spanEnderFn 100 (traceStartVirtual
          [⟨"h"⟩, ⟨"g"⟩, ⟨"f"⟩, ⟨"main.main"⟩, ⟨"runtime.main"⟩] "h" 50 50 [])).map
        (fun c => (c.endOrder, c.parents.map (fun s => (s.sid, s.name, s.startTime, s.endTime)))))
      = Except.ok ([2, 0, 1], [(0, "f", 50, some 50), (1, "g", 50, some 50)])
    ∧ ([2, 0, 1] : List Nat) ≠ [2, 1, 0] :=
  ⟨rfl, by decide⟩

/-- Claim C3: the live close paths never consult or write the tombstone
markers.  A second `TraceError` on the same span context is a silent no-op
(no programming-error warning, no tombstone written), and a span context
already carrying a Stuck marker does not block the normal close: the ender
still records Ok status and ends the span. -/
theorem close_paths_ignore_tombstones :
    (traceErrorOnSpan (some "boom") "" [] 6
        (traceErrorOnSpan (some "boom") "" [] 5 (traceStartReal none 0 "op" 1 []))
      = traceErrorOnSpan (some "boom") "" [] 5 (traceStartReal none 0 "op" 1 []))
    ∧ ((traceErrorOnSpan (some "boom") "" [] 5 (traceStartReal none 0 "op" 1 [])).logs = [])
    ∧ ((traceErrorOnSpan (some "boom") "" [] 5 (traceStartReal none 0 "op" 1 [])).tombs
        = { doneMark := false, errMark := false, stuckMark := false })
    ∧ ((spanEnderFn 9 { traceStartReal none 1 "op" 1 [] with
          tombs := { stuckMark := true } }).map
          (fun c => (c.span.status, c.span.endTime, c.tombs)))
      = Except.ok (StatusCode.ok, some 9,
          { doneMark := false, errMark := false, stuckMark := true }) :=
  ⟨rfl, rfl, rfl, rfl⟩

/-- Claim C4 (amended): virtual ancestor reconstruction opens one span per
captured frame EXCEPT the innermost frame (represented by the explicitly
named real span), the outermost frame, and frames named `runtime.main` or
`main.main` (and none at all with two or fewer frames); the synthetic spans
are ordered root to leaf, each parenting the next, all sharing the one
captured start timestamp.  In particular, for `f` calling `g` calling `h`
where only `h` traces, the trace contains exactly the spans `f`, `g`, `h`,
root-first, all zero-duration except `h`. -/
theorem virtual_ancestor_reconstruction_amended (frames : List Frame) (now : Time)
    (attrs : List Attr) :
    (∀ s ∈ callStackFramesToSpans frames now attrs, s.startTime = now ∧ s.attrs = attrs)
    ∧ (∀ s, (callStackFramesToSpans frames now attrs).head? = some s → s.parent = none)
    ∧ List.Chain' (fun a b => b.parent = some a.sid) (callStackFramesToSpans frames now attrs)
    ∧ (callStackFramesToSpans frames now attrs).map Span.name
        = ((selectedFrames frames).filter (fun f => !(isMainFrame f))).map
            (fun f => FuncName f.function)
    ∧ ((spanEnderFn 77 (traceStartVirtual
            [⟨"h"⟩, ⟨"g"⟩, ⟨"f"⟩, ⟨"main.main"⟩, ⟨"runtime.main"⟩] "h" 50 50 [])).map
          (fun c => (c.parents.map (fun s => (s.name, s.parent, s.startTime, s.endTime)),
                     c.span.name, c.span.parent, c.span.startTime, c.span.endTime,
                     c.span.status)))
        = Except.ok ([("f", none, 50, some 50), ("g", some 0, 50, some 50)],
            "h", some 1, 50, some 77, StatusCode.ok) := by
  by_cases h2 : frames.length ≤ 2
  · refine ⟨?_, ?_, ?_, ?_, rfl⟩
    · intro s hs; simp [callStackFramesToSpans, h2] at hs
    · intro s hs; simp [callStackFramesToSpans, h2] at hs
    · simp [callStackFramesToSpans, h2]
    · simp [callStackFramesToSpans, h2, selectedFrames_eq_nil frames h2]
  · refine ⟨?_, ?_, ?_, ?_, rfl⟩
    · intro s hs
      rw [callStackFramesToSpans, if_neg h2] at hs
      exact buildSynth_mem now attrs (selectedFrames frames) none 0 s hs
    · intro s hs
      rw [callStackFramesToSpans, if_neg h2] at hs
      exact buildSynth_head_parent now attrs (selectedFrames frames) none 0 s hs
    · rw [callStackFramesToSpans, if_neg h2]
      exact buildSynth_chain now attrs (selectedFrames frames) none 0
    · rw [callStackFramesToSpans, if_neg h2]
      exact buildSynth_names now attrs (selectedFrames frames) none 0

/-- Claim C4, counterexample to the claim as stated: with five captured
frames (`h`, `g`, `f`, `main.main`, `runtime.main`) the engine opens two
synthetic ancestor spans plus the one named real span — three spans, not
one per captured frame. -/
theorem not_one_span_per_captured_frame :
    ((traceStartVirtual [⟨"h"⟩, ⟨"g"⟩, ⟨"f"⟩, ⟨"main.main"⟩, ⟨"runtime.main"⟩]
        "h" 50 50 []).parents.length + 1 = 3)
    ∧ (([⟨"h"⟩, ⟨"g"⟩, ⟨"f"⟩, ⟨"main.main"⟩, ⟨"runtime.main"⟩] : List Frame).length = 5)
    ∧ (3 : Nat) ≠ 5 :=
  ⟨rfl, rfl, by decide⟩

/-- Witness for C4's amended theorem at a concrete input. -/
theorem virtual_ancestor_reconstruction_amended_witness :
    (mkSynthSpan 0 "f" none 50 ([] : List Attr)).startTime = 50
    ∧ List.Chain' (fun a b => b.parent = some a.sid)
        (callStackFramesToSpans
          [⟨"h"⟩, ⟨"g"⟩, ⟨"f"⟩, ⟨"main.main"⟩, ⟨"runtime.main"⟩] 50 []) := by
  refine ⟨?_, ?_⟩
  · exact ((virtual_ancestor_reconstruction_amended
        [⟨"h"⟩, ⟨"g"⟩, ⟨"f"⟩, ⟨"main.main"⟩, ⟨"runtime.main"⟩] 50 []).1
      (mkSynthSpan 0 "f" none 50 []) (by decide)).1
  · exact (virtual_ancestor_reconstruction_amended
        [⟨"h"⟩, ⟨"g"⟩, ⟨"f"⟩, ⟨"main.main"⟩, ⟨"runtime.main"⟩] 50 []).2.2.1

/-- Claim C5 (amended): on timer expiry with the span still recording, the
watchdog records the synthetic stuck error, sets `exception.type = stuck`,
sets error status with description "stuck" and does not end the span; the
timer is released on both the signal and the expiry outcome.  However, the
span's later normal completion, finding the span still recording, sets Ok
status — which supersedes the recorded error status under the
collaborator's status ranking — and ends the span. -/
theorem watchdog_behavior_amended (cs : CallState) (name : String) (el t : Time)
    (hrec : cs.span.recording = true) (hst : cs.span.status ≠ StatusCode.ok)
    (hdone : cs.doneClosed = false) :
    ((watchdogRun .expired name el cs).1.span.recording = true)
    ∧ ((watchdogRun .expired name el cs).1.span.endTime = cs.span.endTime)
    ∧ ((watchdogRun .expired name el cs).1.span.status = StatusCode.error)
    ∧ ((watchdogRun .expired name el cs).1.span.statusDesc = "stuck")
    ∧ ((watchdogRun .expired name el cs).1.span.attrs
        = cs.span.attrs ++ [("exception.type", "stuck")])
    ∧ ((watchdogRun .expired name el cs).1.span.events
        = cs.span.events ++ [{ msg := stuckEventMsg name el, withStack := true, attrs := [] }])
    ∧ (∀ o, (watchdogRun o name el cs).2 = true)
    ∧ ((spanEnderFn t (watchdogRun .expired name el cs).1).map
          (fun c => (c.span.status, c.span.recording, c.span.endTime))
        = Except.ok (StatusCode.ok, false, some t)) := by
  have hrank : ¬ (StatusCode.error.rank < cs.span.status.rank) := by
    cases h : cs.span.status
    · decide
    · decide
    · exact absurd h hst
  refine ⟨?_, ?_, ?_, ?_, ?_, ?_, ?_, ?_⟩
  · simp [watchdogRun, watchdogExpireEffect, Span.recordError, Span.setAttributes,
      Span.setStatus, hrec, hrank]
  · simp [watchdogRun, watchdogExpireEffect, Span.recordError, Span.setAttributes,
      Span.setStatus, hrec, hrank]
  · simp [watchdogRun, watchdogExpireEffect, Span.recordError, Span.setAttributes,
      Span.setStatus, hrec, hrank]
  · simp [watchdogRun, watchdogExpireEffect, Span.recordError, Span.setAttributes,
      Span.setStatus, hrec, hrank]
  · simp [watchdogRun, watchdogExpireEffect, Span.recordError, Span.setAttributes,
      Span.setStatus, hrec, hrank]
  · simp [watchdogRun, watchdogExpireEffect, Span.recordError, Span.setAttributes,
      Span.setStatus, hrec, hrank]
  · intro o; cases o <;> rfl
  · have hdone2 : (watchdogRun .expired name el cs).1.doneClosed = false := by
      simp [watchdogRun, watchdogExpireEffect, hrec, hdone]
    have hrec2 : (watchdogRun .expired name el cs).1.span.recording = true := by
      simp [watchdogRun, watchdogExpireEffect, Span.recordError, Span.setAttributes,
        Span.setStatus, hrec, hrank]
    have hst2 : (watchdogRun .expired name el cs).1.span.status = StatusCode.error := by
      simp [watchdogRun, watchdogExpireEffect, Span.recordError, Span.setAttributes,
        Span.setStatus, hrec, hrank]
    have hspan : (((watchdogRun .expired name el cs).1.span.setStatus .ok "").endAt t).status
          = StatusCode.ok
        ∧ (((watchdogRun .expired name el cs).1.span.setStatus .ok "").endAt t).recording
          = false
        ∧ (((watchdogRun .expired name el cs).1.span.setStatus .ok "").endAt t).endTime
          = some t := by
      simp [Span.setStatus, Span.endAt, hrec2, hst2, StatusCode.rank]
    simp only [spanEnderFn, hdone2, Bool.false_eq_true, if_false, hrec2, if_true]
    cases hv : (watchdogRun .expired name el cs).1.vNow with
    | none =>
      simp [parentSpansEndApply, hv, Except.map, hspan.1, hspan.2.1, hspan.2.2]
    | some nw =>
      by_cases hp : (watchdogRun .expired name el cs).1.parents.isEmpty
      · simp [parentSpansEndApply, hv, hp, Except.map, hspan.1, hspan.2.1, hspan.2.2]
      · simp [parentSpansEndApply, hv, hp, Except.map, hspan.1, hspan.2.1, hspan.2.2]

/-- Claim C5, counterexample to the claim as stated: after a watchdog
expiry records the stuck error status, the later normal completion
overwrites it — the final exported status is Ok, not the stuck error
status. -/
theorem stuck_status_overwritten_by_completion :
    ((watchdogRun .expired "slow" 3 (traceStartReal none 0 "slow" 10 [])).1.span.status
      = StatusCode.error)
    ∧ ((spanEnderFn 13 (watchdogRun .expired "slow" 3
          (traceStartReal none 0 "slow" 10 [])).1).map (fun c => c.span.status)
        = Except.ok StatusCode.ok)
    ∧ StatusCode.ok ≠ StatusCode.error :=
  ⟨rfl, rfl, by decide⟩

/-- Witness for C5's amended theorem at a concrete input. -/
theorem watchdog_behavior_amended_witness :
    ((watchdogRun .expired "w" 2 (traceStartReal none 0 "w" 1 [])).1.span.status
      = StatusCode.error)
    ∧ ((spanEnderFn 4 (watchdogRun .expired "w" 2 (traceStartReal none 0 "w" 1 [])).1).map
        (fun c => (c.span.status, c.span.recording, c.span.endTime))
      = Except.ok (StatusCode.ok, false, some 4)) := by
  have h := watchdog_behavior_amended (traceStartReal none 0 "w" 1 []) "w" 2 4
    rfl (by decide) rfl
  exact ⟨h.2.2.1, h.2.2.2.2.2.2.2⟩

/-- Claim C6: the collaborator's `SpanFromContext` never returns nil — a
span-free context yields the non-recording no-op span — so `TraceError` on
a context carrying no span takes the not-recording branch and silently
returns: no virtual trace is manufactured, no ancestors are opened, nothing
is logged; the `span == nil` manufacture branch of the source is dead code.
The claim's second half does hold: on a context whose span is already
closed, `TraceError` is a silent no-op.  Both evaluated at concrete
inputs. -/
theorem traceError_no_span_silently_noops :
    (TraceErrorM .noSpan (some "boom") [⟨"h"⟩, ⟨"g"⟩, ⟨"f"⟩, ⟨"entry"⟩] "h"
        1 1 5 [] [] "st"
      = { parents := [], resSpan := some noopSpan, logs := [] })
    ∧ (TraceErrorM (.withSpan ((mkStartedSpan 0 "x" none 1 []).endAt 2)) (some "e")
          [] "c" 0 0 9 [] [] ""
        = { parents := [], resSpan := some ((mkStartedSpan 0 "x" none 1 []).endAt 2),
            logs := [] }) :=
  ⟨rfl, rfl⟩

/-- Claim C7: `TraceError` with a nil error returns after one debug-level
log line: it opens no spans, touches no span, and cannot fault the
caller (the model is a total function). -/
theorem traceError_nil_error_harmless (c : CtxSpan) (frames : List Frame)
    (callerName : String) (now tStart tEnd : Time) (attrs tagAttrs : List Attr)
    (stk : String) :
    TraceErrorM c none frames callerName now tStart tEnd attrs tagAttrs stk
      = { parents := [], resSpan := c.toOption,
          logs := [(LogLevel.debug, "coretracer: TraceError() called with nil error")] } :=
  rfl

/-- Claim C8: breakpoint elision removes exactly the leading contiguous run
of matching frames past the effective skip: the result starts at the first
non-matching frame and keeps every deeper frame — in particular a matching
frame sandwiched after a non-matching one is never removed (the `rest` part
is unconstrained and fully preserved); `GetCaller` returns that same first
non-matching frame. -/
theorem breakpoint_elision_leading_run_only (so co : Nat) (bp : String)
    (head pre rest : List Frame) (f : Frame)
    (hhead : head.length = so + co + 1)
    (hpre : ∀ g ∈ pre, bpMatches bp g.function = true)
    (hf : bpMatches bp f.function = false) :
    getStackFrames so co bp (head ++ (pre ++ f :: rest)) = f :: rest
    ∧ getCaller so co bp (head ++ (pre ++ f :: rest)) = some f
    ∧ ∀ m ∈ rest, m ∈ getStackFrames so co bp (head ++ (pre ++ f :: rest)) := by
  have hdrop : (head ++ (pre ++ f :: rest)).drop (so + co + 1) = pre ++ f :: rest := by
    rw [← hhead]; exact dropLenAppend head _
  have helide := elideBreakpointRun_append bp pre rest f hpre hf
  refine ⟨?_, ?_, ?_⟩
  · simp [getStackFrames, hdrop, helide]
  · simp [getCaller, hdrop, helide]
  · intro m hm
    simp only [getStackFrames, hdrop, helide]
    exact List.mem_cons_of_mem f hm

/-- Witness for C8's theorem at a concrete input: a frame of the breakpoint
package sandwiched behind a user frame survives elision. -/
theorem breakpoint_elision_leading_run_only_witness :
    getStackFrames 0 0 "wrap"
        [⟨"x"⟩, ⟨"wrap.a"⟩, ⟨"wrap.b"⟩, ⟨"user.go"⟩, ⟨"wrap.c"⟩, ⟨"main"⟩]
      = [⟨"user.go"⟩, ⟨"wrap.c"⟩, ⟨"main"⟩]
    ∧ getCaller 0 0 "wrap"
        [⟨"x"⟩, ⟨"wrap.a"⟩, ⟨"wrap.b"⟩, ⟨"user.go"⟩, ⟨"wrap.c"⟩, ⟨"main"⟩]
      = some ⟨"user.go"⟩ := by
  have h := breakpoint_elision_leading_run_only 0 0 "wrap" [⟨"x"⟩]
    [⟨"wrap.a"⟩, ⟨"wrap.b"⟩] [⟨"wrap.c"⟩, ⟨"main"⟩] ⟨"user.go"⟩ rfl
    (by decide) (by decide)
  exact ⟨h.1, h.2.1⟩

/-- Claim C9: with the registry's active-engine reference unset, every free
entry point is a no-op: the Trace-family functions leave the world
unchanged and return a completion function that does nothing, and the
remaining entry points return without any effect. -/
theorem free_entry_points_noop_when_disabled (σ : Type) (s w : σ)
    (tags : List Attr) (name : String) (err : Option String) (off : Int)
    (shutdown : σ → σ) :
    (Trace (none : Option (Engine σ)) tags s).1 = s
    ∧ (Trace (none : Option (Engine σ)) tags s).2 w = w
    ∧ (TraceWithName (none : Option (Engine σ)) name tags s).1 = s
    ∧ (TraceWithName (none : Option (Engine σ)) name tags s).2 w = w
    ∧ TraceError (none : Option (Engine σ)) err tags s = s
    ∧ (Traceless (none : Option (Engine σ)) tags s).1 = s
    ∧ (Traceless (none : Option (Engine σ)) tags s).2 w = w
    ∧ (TracelessWithName (none : Option (Engine σ)) name tags s).1 = s
    ∧ (TracelessWithName (none : Option (Engine σ)) name tags s).2 w = w
    ∧ WithTags (none : Option (Engine σ)) tags s = s
    ∧ SetCallStackOffset (none : Option (Engine σ)) off s = s
    ∧ Close (none : Option (Engine σ)) shutdown s = (none, s) :=
  ⟨rfl, rfl, rfl, rfl, rfl, rfl, rfl, rfl, rfl, rfl, rfl, rfl⟩

/-- Claim C10: every public `Tags` operation is total on the zero value:
`With` on a zero-value set allocates a fresh valid set holding the new
pair, `Range` on a zero-value set never invokes the callback, and `Union`
always returns a newly allocated valid set, treating a zero-value receiver
and any zero-value argument as an empty set.  (The model is pure, so
`Union` cannot mutate its operands; the nil-mutex guards of the source are
the `none` branches of these definitions.) -/
theorem tags_total_on_zero_value (k : String) (v : TagVal)
    (fn : String → TagVal → Bool) (t : GoTags) (args pre post : List GoTags) :
    tagsWith none k v = some [(k, v)]
    ∧ tagsRangeVisited none fn = []
    ∧ (tagsUnion t args).isSome = true
    ∧ tagsUnion none args = tagsUnion (some []) args
    ∧ tagsUnion t (pre ++ none :: post) = tagsUnion t (pre ++ post) := by
  refine ⟨rfl, rfl, rfl, rfl, ?_⟩
  simp only [tagsUnion, foldl_unionInto_append_none]

end CoreTracer
